/-
Verification of the PyShell command interpreter (src/main.py) against its
natural-language specification.

The shallow embedding below translates the program's pure logic into Lean:
  * Python string primitives used by the shell (`str.split`, `str.startswith`,
    `os.path.join`, `int(...)`) become structural functions on `List Char`
    so that every definition is executable and kernel-reducible.
  * OS-dependent facts (which files exist, which are executable, which paths
    are directories, directory listings, the outcome of `chdir`, the outcome
    of launching a child process) are parameters of the embedding, packaged
    in small structures (`OSEnv`, `DirWorld`, `FS`, `LaunchOutcome`).
  * Each shell operation (`PathResolver.findinpath`, `Shell.processinput`,
    `Shell.executeexternalcommand`, the builtin `execute` methods and
    `Completer.complete`) becomes a Lean function over those parameters,
    mirroring the Python control flow line by line.
-/
import Mathlib

namespace PyShell

/-! ## Python string primitives -/

/-- Split a character list at every separator character, keeping empty
fragments, as Python's `str.split(sep)` does for a one-character separator
(so `"".split(sep) == [""]` and `":".split(":") == ["", ""]`). -/
def splitByAux (p : Char → Bool) : List Char → List (List Char)
  | [] => [[]]
  | c :: cs =>
    if p c then [] :: splitByAux p cs
    else
      match splitByAux p cs with
      | [] => [[c]]
      | t :: ts => (c :: t) :: ts

/-- Python `s.split(sep)` for a single-character separator `sep`. -/
def pySplitChar (sep : Char) (s : String) : List String :=
  (splitByAux (fun c => c == sep) s.data).map String.mk

/-- Python `s.split()` (no separator): split on whitespace runs and drop the
empty fragments.  This also models `s.strip().split()` as used at
`Shell.processinput` line 153: stripping only removes leading/trailing
whitespace, which contributes empty fragments that the filter drops anyway. -/
def pySplitWhite (s : String) : List String :=
  ((splitByAux Char.isWhitespace s.data).map String.mk).filter (fun t => !(t == ""))

/-- Python `s.startswith(pre)`. -/
def pyStartsWith (s pre : String) : Bool :=
  List.isPrefixOf pre.data s.data

/-- Whether the first character of `s` is `'/'` (Python `s.startswith("/")`,
specialised because `os.path.join` and the completer only test a slash). -/
def headIsSlash (s : String) : Bool :=
  s.data.head? == some '/'

/-- Whether the last character of `s` is `'/'` (Python `s.endswith("/")`). -/
def endsWithSlash (s : String) : Bool :=
  s.data.getLast? == some '/'

/-- Python `s.strip()`: remove leading and trailing whitespace. -/
def pyStrip (s : String) : String :=
  String.mk (((s.data.dropWhile Char.isWhitespace).reverse.dropWhile Char.isWhitespace).reverse)

/-- Value of a non-empty string of ASCII decimal digits; `none` when the list
is empty or contains a non-digit. -/
def decDigitsVal (cs : List Char) : Option Nat :=
  if cs.isEmpty then none
  else if cs.all Char.isDigit then
    some (cs.foldl (fun n c => 10 * n + (c.toNat - 48)) 0)
  else none

/-- Python `int(s)` on decimal string literals: strip whitespace, allow one
leading sign, then require a non-empty digit string; `none` models the
`ValueError` raised otherwise.  (Underscore digit grouping is not modelled.) -/
def pyParseInt (s : String) : Option Int :=
  match (pyStrip s).data with
  | '-' :: rest => (decDigitsVal rest).map (fun n => -(n : Int))
  | '+' :: rest => (decDigitsVal rest).map (fun n => (n : Int))
  | cs => (decDigitsVal cs).map (fun n => (n : Int))

/-- POSIX `os.path.join(d, c)` for two arguments: an absolute second argument
replaces the first; otherwise the parts are glued with `/` unless the first
part is empty or already ends in `/`. -/
def osPathJoin (d c : String) : String :=
  if headIsSlash c then c
  else if d == "" || endsWithSlash d then d ++ c
  else d ++ "/" ++ c

/-! ## OS environment and `PathResolver.findinpath` (src/main.py lines 64-72) -/

/-- The facts about the OS that `PathResolver` consults: the value of the
`PATH` environment variable (`none` = unset), `os.path.exists` and
`os.access(·, os.X_OK)`. -/
structure OSEnv where
  pathVar : Option String
  fsExists : String → Bool
  canExec : String → Bool

/-- The loop body's test of line 70 on one directory:
`os.path.exists(fullpath) and os.access(fullpath, os.X_OK)` for
`fullpath = os.path.join(directory, cmd)`. -/
def dirMatch (env : OSEnv) (cmd d : String) : Bool :=
  env.fsExists (osPathJoin d cmd) && env.canExec (osPathJoin d cmd)

/-- The scanning loop of `findinpath` (lines 68-72): for each directory in
order, run the line-70 test on `os.path.join(directory, cmd)` and return the
first hit. -/
def findScan (env : OSEnv) (cmd : String) : List String → Option String
  | [] => none
  | directory :: rest =>
    if dirMatch env cmd directory then some (osPathJoin directory cmd)
    else findScan env cmd rest

/-- The directory list scanned by `findinpath` (line 67):
`os.environ.get("PATH", "").split(os.pathsep)` with the POSIX `':'`. -/
def pathDirs (env : OSEnv) : List String :=
  pySplitChar ':' (env.pathVar.getD "")

/-- `PathResolver.findinpath` (lines 64-72). -/
def findinpath (env : OSEnv) (cmd : String) : Option String :=
  findScan env cmd (pathDirs env)

/-! ## Shell dispatch (src/main.py lines 124-164) -/

/-- Keys of the builtin registry, in the insertion order of
`Shell.initializebuiltins` (lines 132-139). -/
def builtinNames : List String :=
  ["exit", "echo", "pwd", "cd", "type"]

/-- The routing decision taken by `Shell.processinput`; `notFound` carries the
exact line printed (Python `print` appends a newline). -/
inductive Dispatch where
  | noop
  | builtin (name : String) (args : List String)
  | external (tokens : List String)
  | notFound (printed : String)
deriving DecidableEq

/-- `Shell.processinput` (lines 152-164).  The `elif PathResolver.findinpath(cmdname):`
tests Python truthiness of the optional string, which is false for `None` and
for the empty string; the inner `if` mirrors that exactly. -/
def processinput (env : OSEnv) (inputstr : String) : Dispatch :=
  match pySplitWhite inputstr with
  | [] => .noop
  | cmdname :: cmdargs =>
    if builtinNames.contains cmdname then .builtin cmdname cmdargs
    else
      match findinpath env cmdname with
      | some p =>
        if p == "" then .notFound (cmdname ++ ": command not found\n")
        else .external (cmdname :: cmdargs)
      | none => .notFound (cmdname ++ ": command not found\n")

/-! ## External command execution (src/main.py lines 141-150) -/

/-- Captured result of a completed child process (`subprocess.run` with
`capture_output=True, text=True`). -/
structure ChildResult where
  returncode : Int
  stdout : String
  stderr : String
deriving DecidableEq

/-- Outcome of attempting to launch the child: it ran to completion, or the
spawn raised `FileNotFoundError`, or it raised another `OSError`. -/
inductive LaunchOutcome where
  | completed (r : ChildResult)
  | fileNotFound
  | osError (msg : String)
deriving DecidableEq

/-- `Shell.executeexternalcommand` (lines 141-150), returning everything the
call prints.  With `check=True`, `subprocess.run` raises
`CalledProcessError` whenever the return code is non-zero, so
`print(result.stdout, end="")` runs only on a zero exit and the handler
prints `e.stderr` instead on a non-zero exit. -/
def executeexternalcommand (launch : LaunchOutcome) (tokens : List String) : String :=
  match launch with
  | .completed r => if r.returncode == 0 then r.stdout else r.stderr
  | .fileNotFound => tokens.headD "" ++ ": command not found\n"
  | .osError m => "Error executing " ++ tokens.headD "" ++ ": " ++ m ++ "\n"

/-! ## The builtins (src/main.py lines 17-62) -/

/-- Outcome of one `os.chdir(path)` call. -/
inductive ChdirOutcome where
  | success
  | fileNotFound
  | notADirectory
  | osError (msg : String)
deriving DecidableEq

/-- The directory-related OS state the `cd` builtin interacts with: the
current working directory, the outcome `os.chdir` would have on each path,
and the resulting working directory on success. -/
structure DirWorld where
  cwd : String
  chdirResult : String → ChdirOutcome
  resolveDir : String → String

/-- `CdCommand.execute` (lines 52-62): pairs the printed output with the
world after the call.  `home` stands for `os.path.expanduser("~")`.  On any
exception the working directory is untouched, because `os.chdir` raised
without changing it. -/
def cdExecute (w : DirWorld) (home : String) (args : List String) : String × DirWorld :=
  let path := match args with | [] => home | a :: _ => a
  match w.chdirResult path with
  | .success => ("", { w with cwd := w.resolveDir path })
  | .fileNotFound => ("cd: " ++ path ++ ": No such file or directory\n", w)
  | .notADirectory => ("cd: " ++ path ++ ": Not a directory\n", w)
  | .osError m => ("cd: " ++ path ++ ": " ++ m ++ "\n", w)

/-- What one `ExitCommand.execute` call does to the process. -/
inductive ExitOutcome where
  | terminated (code : Int)
  | printed (msg : String)
deriving DecidableEq

/-- `ExitCommand.execute` (lines 17-23): `int(args[0]) if args else 0`, then
`sys.exit(code)`; a `ValueError` from `int` is caught and reported.
(`sys.exit` raises `SystemExit`, which the `except ValueError` does not
catch, so a successful parse always terminates.) -/
def exitExecute (args : List String) : ExitOutcome :=
  match args with
  | [] => .terminated 0
  | a :: _ =>
    match pyParseInt a with
    | some n => .terminated n
    | none => .printed "exit: Invalid exit code\n"

/-- `TypeCommand.execute` (lines 29-46), returning everything printed: the
command name is printed without a newline, then the classifying suffix.  The
walrus `elif path := PathResolver.findinpath(cmd):` is a truthiness test,
false for `None` and for the empty string. -/
def typeExecute (env : OSEnv) (builtins : List String) (args : List String) : String :=
  match args with
  | [] => "type: usage: type <command>\n"
  | cmd :: _ =>
    if builtins.contains cmd then cmd ++ " is a shell builtin\n"
    else
      match findinpath env cmd with
      | some p =>
        if p == "" then cmd ++ ": not found\n"
        else cmd ++ " is " ++ p ++ "\n"
      | none => cmd ++ ": not found\n"

/-! ## The completer (src/main.py lines 74-122)

`pathlib.Path` values built by the completer are modelled syntactically: a
flag for absoluteness plus the list of components.  `Path('.')` and
`Path('/')` both have no components; `/` appends a component; `.parent`
drops the last component (and is the identity on `.` and `/`, as in
`pathlib`); `str` joins the components with `/`. -/

/-- A `pathlib` pure path as the completer manipulates it. -/
structure PurePath where
  isAbs : Bool
  comps : List String
deriving DecidableEq

/-- `Path('.')`. -/
def ppDot : PurePath := ⟨false, []⟩

/-- `Path('/')`. -/
def ppRoot : PurePath := ⟨true, []⟩

/-- `p / c` for a plain component `c`. -/
def ppChild (p : PurePath) (c : String) : PurePath :=
  ⟨p.isAbs, p.comps ++ [c]⟩

/-- `p.parent`. -/
def ppParent (p : PurePath) : PurePath :=
  ⟨p.isAbs, p.comps.dropLast⟩

/-- `str(p)`: `"."` for the empty relative path, `"/"`-rooted for absolute
paths, components joined by `"/"`. -/
def ppStr (p : PurePath) : String :=
  if p.isAbs then "/" ++ String.intercalate "/" p.comps
  else
    match p.comps with
    | [] => "."
    | _ => String.intercalate "/" p.comps

/-- The filesystem facts the completer consults: `Path.is_dir` and the entry
names produced by `Path.iterdir` (an entry path is the listed directory with
the entry name appended, so `str` of an entry of `Path('.')` is its name). -/
structure FS where
  isDir : PurePath → Bool
  listdir : PurePath → List String

/-- Path resolution of the `cd` completion branch (lines 92-104): start at
root or the current directory depending on a leading `/` (which Python
strips with `target[1:]`), walk the `/`-separated components applying `..`
as `.parent` and skipping empty and `.` components, then fall back to the
parent directory and finally to `Path('.')` when the resolved path is not a
directory. -/
def cdResolve (fs : FS) (target0 : String) : PurePath :=
  let startAbs := headIsSlash target0
  let start := if startAbs then ppRoot else ppDot
  let target := if startAbs then String.mk (target0.data.drop 1) else target0
  let resolved := (pySplitChar '/' target).foldl
    (fun p component =>
      if component == ".." then ppParent p
      else if !(component == "") && !(component == ".") then ppChild p component
      else p)
    start
  if fs.isDir resolved then resolved
  else if fs.isDir (ppParent resolved) then ppParent resolved
  else ppDot

/-- One candidate string for an entry named `n` of directory `dir`:
`str(p) + "/"` when the entry is itself a directory, else `str(p)`
(lines 106-110 and 112-116). -/
def entryOut (fs : FS) (dir : PurePath) (n : String) : String :=
  let p := ppChild dir n
  if fs.isDir p then ppStr p ++ "/" else ppStr p

/-- The list comprehension of lines 106-110 (also lines 112-116): entries of
`dir` whose NAME starts with the whole last token, mapped through
`entryOut`, in listing order. -/
def fragMatches (fs : FS) (dir : PurePath) (lastTok : String) : List String :=
  (fs.listdir dir).filterMap
    (fun n => if pyStartsWith n lastTok then some (entryOut fs dir n) else none)

/-- The candidate list computed by a `state == 0` call of
`Completer.complete` (lines 80-118), by token count of the buffer.  The
final `else: self.matches = []` of lines 117-118 is unreachable (the three
cases below are exhaustive) and has no counterpart. -/
def freshMatches (fs : FS) (builtins : List String) (text : String) : List String :=
  match pySplitWhite text with
  | [] => builtins ++ fs.listdir ppDot
  | [p0] =>
      builtins.filter (fun c => pyStartsWith c p0)
        ++ (fs.listdir ppDot).filter (fun n => pyStartsWith n p0)
  | parts =>
      let lastTok := parts.getLastD ""
      let penult := parts.dropLast.getLastD ""
      let dir := if penult == "cd" then cdResolve fs lastTok else ppDot
      fragMatches fs dir lastTok

/-- Result of one `Completer.complete` call: either the returned value
(`some` candidate or `None`) together with the `self.matches` list in place
after the call, or the `AttributeError` raised by `self.matches[state]` when
`self.matches` was never assigned. -/
inductive CompleteResult where
  | ok (res : Option String) (cache : List String)
  | attrError
deriving DecidableEq

/-- `Completer.complete` (lines 78-122).  `cache` is the `self.matches`
attribute before the call (`none` = never assigned on this instance).  A
`state == 0` call recomputes `self.matches` and indexes it; any other call
indexes the existing attribute, raising `AttributeError` when it does not
exist, and `self.matches[state]` out of range is caught and turned into
`None` (lines 119-122). -/
def complete (fs : FS) (builtins : List String) (text : String) (state : Nat)
    (cache : Option (List String)) : CompleteResult :=
  if state = 0 then
    let m := freshMatches fs builtins text
    .ok (m.get? state) m
  else
    match cache with
    | none => .attrError
    | some m => .ok (m.get? state) m

/-- Candidate list for the `cd` branch as amended claim C7 describes it:
resolve the whole last token (with parent/current-directory fallback) via
`cdResolve`, then keep the resolved directory's entries whose names start
with the ENTIRE last token, rendering directories with a trailing `/`. -/
def amendedCdMatches (fs : FS) (lastTok : String) : List String :=
  let dir := cdResolve fs lastTok
  (fs.listdir dir).filterMap
    (fun n => if pyStartsWith n lastTok then some (entryOut fs dir n) else none)

/-- Candidate list for the `cd` branch as claim C7 literally states it: the
resolved directory's entries whose names start with the FINAL PATH COMPONENT
of the last token, rendering directories with a trailing `/`. -/
def claimCdMatches (fs : FS) (lastTok : String) : List String :=
  let dir := cdResolve fs lastTok
  let finalComp := (pySplitChar '/' lastTok).getLastD ""
  (fs.listdir dir).filterMap
    (fun n => if pyStartsWith n finalComp then some (entryOut fs dir n) else none)

/-! ## Concrete worlds used by counterexamples and witnesses -/

/-- An OS with `PATH` unset whose current directory holds an executable file
named `c` (so `os.path.exists("c")` and `os.access("c", X_OK)` hold). -/
def envUnsetPath : OSEnv :=
  ⟨none, fun s => s == "c", fun s => s == "c"⟩

/-- An OS with a two-directory `PATH` and no executable files at all. -/
def envBarren : OSEnv :=
  ⟨some "/a:/b", fun _ => false, fun _ => false⟩

/-- An OS whose `PATH` is `/bin` and where exactly `/bin/ls` exists and is
executable. -/
def envBin : OSEnv :=
  ⟨some "/bin", fun s => s == "/bin/ls", fun s => s == "/bin/ls"⟩

/-- A filesystem whose current directory holds one subdirectory `foo`, which
in turn holds one plain file `bar`. -/
def fsFooBar : FS where
  isDir := fun p => p == ppDot || p == ⟨false, ["foo"]⟩
  listdir := fun p =>
    if p == ppDot then ["foo"]
    else if p == (⟨false, ["foo"]⟩ : PurePath) then ["bar"]
    else []

/-- A world in which `chdir` fails with `FileNotFoundError` exactly on the
path `missing` and succeeds in place elsewhere. -/
def worldMissing : DirWorld :=
  ⟨"/home/u", fun s => if s == "missing" then .fileNotFound else .success, fun s => s⟩

/-! ## Helper lemmas -/

theorem string_eq_empty_of_data : ∀ {s : String}, s.data = [] → s = ""
  | ⟨_⟩, h => by cases h; rfl

theorem append_ne_empty_right (s t : String) (ht : t ≠ "") : s ++ t ≠ "" := by
  intro h
  have hd : s.data ++ t.data = [] := by
    have : (s ++ t).data = ("" : String).data := by rw [h]
    simpa using this
  exact ht (string_eq_empty_of_data (List.append_eq_nil.mp hd).2)

theorem osPathJoin_ne_empty (d : String) {cmd : String} (hc : cmd ≠ "") :
    osPathJoin d cmd ≠ "" := by
  unfold osPathJoin
  split
  · exact hc
  · split
    · exact append_ne_empty_right _ _ hc
    · exact append_ne_empty_right _ _ hc

theorem osPathJoin_empty_left (cmd : String) : osPathJoin "" cmd = cmd := by
  unfold osPathJoin
  split
  · rfl
  · rfl

theorem splitByAux_ne_nil (p : Char → Bool) (l : List Char) : splitByAux p l ≠ [] := by
  cases l with
  | nil => simp [splitByAux]
  | cons c cs =>
    simp only [splitByAux]
    split
    · simp
    · split <;> simp

theorem pySplitChar_ne_nil (sep : Char) (s : String) : pySplitChar sep s ≠ [] := by
  unfold pySplitChar
  simp [splitByAux_ne_nil]

theorem pySplitWhite_head_ne_empty {s t : String} {ts : List String}
    (h : pySplitWhite s = t :: ts) : t ≠ "" := by
  have hmem : t ∈ pySplitWhite s := by rw [h]; exact List.mem_cons_self _ _
  unfold pySplitWhite at hmem
  have := List.of_mem_filter hmem
  simpa using this

theorem findScan_none_iff (env : OSEnv) (cmd : String) (l : List String) :
    findScan env cmd l = none ↔ ∀ d ∈ l, dirMatch env cmd d = false := by
  induction l with
  | nil => simp [findScan]
  | cons a rest ih =>
    simp only [findScan]
    split
    · next h => simp [h]
    · next h =>
        simp only [Bool.not_eq_true] at h
        simp [ih, h]

theorem findScan_some_decomp (env : OSEnv) (cmd : String) :
    ∀ (l : List String) (p : String), findScan env cmd l = some p →
      ∃ pre d post, l = pre ++ d :: post ∧ (∀ e ∈ pre, dirMatch env cmd e = false) ∧
        dirMatch env cmd d = true ∧ p = osPathJoin d cmd := by
  intro l
  induction l with
  | nil => intro p h; simp [findScan] at h
  | cons a rest ih =>
    intro p h
    simp only [findScan] at h
    split at h
    · next hm =>
      refine ⟨[], a, rest, rfl, by simp, hm, ?_⟩
      exact (Option.some.inj h).symm
    · next hm =>
      obtain ⟨pre, d, post, hl, hpre, hd, hp⟩ := ih p h
      refine ⟨a :: pre, d, post, by rw [hl, List.cons_append], ?_, hd, hp⟩
      intro e he
      simp only [Bool.not_eq_true] at hm
      rcases List.mem_cons.mp he with rfl | he'
      · exact hm
      · exact hpre e he'

theorem findinpath_some_ne_empty {env : OSEnv} {cmd p : String} (hc : cmd ≠ "")
    (h : findinpath env cmd = some p) : p ≠ "" := by
  obtain ⟨_, d, _, _, _, _, hp⟩ := findScan_some_decomp env cmd _ p h
  rw [hp]
  exact osPathJoin_ne_empty d hc

/-! ## Claim theorems -/

/-- C1: for every input line whose whitespace tokenization is `name :: args`,
`processinput` dispatches on the first token with this precedence: a key of
the builtin registry invokes that builtin with the remaining tokens;
otherwise a first token resolved by `findinpath` runs the line as an
external process on the full token list; otherwise exactly the line
`<name>: command not found` is printed. -/
theorem processinput_dispatch (env : OSEnv) (inputstr name : String) (args : List String)
    (htok : pySplitWhite inputstr = name :: args) :
    (builtinNames.contains name = true →
      processinput env inputstr = Dispatch.builtin name args) ∧
    (∀ p, builtinNames.contains name = false → findinpath env name = some p →
      processinput env inputstr = Dispatch.external (name :: args)) ∧
    (builtinNames.contains name = false → findinpath env name = none →
      processinput env inputstr = Dispatch.notFound (name ++ ": command not found\n")) := by
  have hne : name ≠ "" := pySplitWhite_head_ne_empty htok
  refine ⟨?_, ?_, ?_⟩
  · intro hb
    have hb' : name ∈ builtinNames := by simpa using hb
    unfold processinput
    rw [htok]
    simp [hb']
  · intro p hb hf
    have hb' : name ∉ builtinNames := by simpa using hb
    have hpne : p ≠ "" := findinpath_some_ne_empty hne hf
    unfold processinput
    rw [htok]
    simp [hb', hf, hpne]
  · intro hb hf
    have hb' : name ∉ builtinNames := by simpa using hb
    unfold processinput
    rw [htok]
    simp [hb', hf]

/-- Witness for C1: on the line `ls -l` with `/bin/ls` the only executable
on a `/bin` PATH, dispatch is external. -/
theorem processinput_dispatch_case :
    processinput envBin "ls -l" = Dispatch.external ["ls", "-l"] :=
  (processinput_dispatch envBin "ls -l" "ls" ["-l"] (by decide)).2.1 "/bin/ls" (by decide)
    (by decide)

/-- Counterexample to C2 as stated: the claim says findinpath returns the
not-found value whenever PATH is unset, but Python's `"".split(os.pathsep)`
is `[""]` and `os.path.join("", "c") = "c"`, so with PATH unset and an
executable `c` in the current working directory, findinpath returns
`some "c"`, not `none`. -/
theorem findinpath_unset_path_counterexample :
    envUnsetPath.pathVar = none ∧ findinpath envUnsetPath "c" = some "c" :=
  ⟨rfl, by decide⟩

/-- C2 (amended): findinpath splits the PATH value (empty string when the
variable is unset) on the path separator and, scanning the directories in
listed order, returns the first `os.path.join(directory, name)` whose
result exists and is executable (any earlier directory failing the test);
it returns `none` exactly when no directory of that split yields a match.
When PATH is unset or empty, the split is the single empty directory and
joining it is the identity, so the scan degrades to testing the name itself
relative to the current working directory instead of returning `none`
unconditionally. -/
theorem findinpath_first_match (env : OSEnv) (cmd : String) :
    (findinpath env cmd = none ↔ ∀ d ∈ pathDirs env, dirMatch env cmd d = false) ∧
    (∀ p, findinpath env cmd = some p →
      ∃ pre d post, pathDirs env = pre ++ d :: post ∧
        (∀ e ∈ pre, dirMatch env cmd e = false) ∧
        dirMatch env cmd d = true ∧ p = osPathJoin d cmd) ∧
    ((env.pathVar = none ∨ env.pathVar = some "") →
      findinpath env cmd = if dirMatch env cmd "" then some cmd else none) := by
  refine ⟨findScan_none_iff env cmd _, fun p h => findScan_some_decomp env cmd _ p h, ?_⟩
  intro hpv
  have hdirs : pathDirs env = [""] := by
    rcases hpv with h | h <;> simp [pathDirs, h] <;> rfl
  rw [findinpath, hdirs]
  simp only [findScan]
  rw [osPathJoin_empty_left]

/-- Witness for C2 (amended): with two PATH directories and no executables,
findinpath returns `none`. -/
theorem findinpath_first_match_case : findinpath envBarren "x" = none :=
  (findinpath_first_match envBarren "x").1.mpr (by decide)

/-- C3: for every completed external command invocation, a zero exit code
prints exactly the captured standard output, a non-zero exit code prints
exactly the captured standard error (the captured standard output being
discarded), and the printed text is always exactly one of the two streams,
never both. -/
theorem executeexternalcommand_streams (r : ChildResult) (tokens : List String) :
    (r.returncode = 0 → executeexternalcommand (.completed r) tokens = r.stdout) ∧
    (r.returncode ≠ 0 → executeexternalcommand (.completed r) tokens = r.stderr) ∧
    (executeexternalcommand (.completed r) tokens = r.stdout ∨
      executeexternalcommand (.completed r) tokens = r.stderr) := by
  by_cases h : r.returncode = 0 <;>
    simp [executeexternalcommand, h]

/-- Witness for C3: a child exiting 2 surfaces only its standard error. -/
theorem executeexternalcommand_streams_case :
    executeexternalcommand (.completed ⟨2, "out", "err"⟩) ["x"] = "err" :=
  (executeexternalcommand_streams ⟨2, "out", "err"⟩ ["x"]).2.1 (by decide)

/-- C4: for every path argument on which `os.chdir` fails (missing path,
non-directory, or any other OS error), the `cd` builtin leaves the working
directory unchanged and prints a single message of the form
`cd: <path>: <detail>`; in particular `cd: <path>: No such file or
directory` for a missing path and `cd: <path>: Not a directory` for a
non-directory. -/
theorem cdExecute_error_behavior (w : DirWorld) (home path : String) (rest : List String)
    (herr : w.chdirResult path ≠ ChdirOutcome.success) :
    (cdExecute w home (path :: rest)).2.cwd = w.cwd ∧
    (∃ tail, (cdExecute w home (path :: rest)).1 = "cd: " ++ path ++ ": " ++ tail) ∧
    (w.chdirResult path = ChdirOutcome.fileNotFound →
      (cdExecute w home (path :: rest)).1 = "cd: " ++ path ++ ": No such file or directory\n") ∧
    (w.chdirResult path = ChdirOutcome.notADirectory →
      (cdExecute w home (path :: rest)).1 = "cd: " ++ path ++ ": Not a directory\n") := by
  rcases hc : w.chdirResult path with _ | _ | _ | m
  · exact absurd hc herr
  · have hmsg : (cdExecute w home (path :: rest)).1 =
        "cd: " ++ path ++ ": No such file or directory\n" := by simp [cdExecute, hc]
    refine ⟨by simp [cdExecute, hc], ⟨"No such file or directory\n", ?_⟩, fun _ => hmsg, ?_⟩
    · rw [hmsg]
      simp only [String.append_assoc]
      rfl
    · intro h
      simp at h
  · have hmsg : (cdExecute w home (path :: rest)).1 =
        "cd: " ++ path ++ ": Not a directory\n" := by simp [cdExecute, hc]
    refine ⟨by simp [cdExecute, hc], ⟨"Not a directory\n", ?_⟩, ?_, fun _ => hmsg⟩
    · rw [hmsg]
      simp only [String.append_assoc]
      rfl
    · intro h
      simp at h
  · have hmsg : (cdExecute w home (path :: rest)).1 =
        "cd: " ++ path ++ ": " ++ m ++ "\n" := by simp [cdExecute, hc]
    refine ⟨by simp [cdExecute, hc], ⟨m ++ "\n", ?_⟩, ?_, ?_⟩
    · rw [hmsg]
      simp only [String.append_assoc]
    · intro h
      simp at h
    · intro h
      simp at h

/-- Witness for C4: `cd missing` on a world where that path is absent
prints the not-found message and leaves the working directory unchanged. -/
theorem cdExecute_error_behavior_case :
    (cdExecute worldMissing "/root" ["missing"]).1 =
      "cd: missing: No such file or directory\n" ∧
    (cdExecute worldMissing "/root" ["missing"]).2.cwd = "/home/u" :=
  ⟨(cdExecute_error_behavior worldMissing "/root" "missing" [] (by decide)).2.2.1 (by decide),
    (cdExecute_error_behavior worldMissing "/root" "missing" [] (by decide)).1⟩

/-- C5: the `exit` builtin terminates the process with code 0 when given no
argument, terminates with code `n` when its first argument parses as the
integer `n`, and on a non-integer first argument prints exactly
`exit: Invalid exit code` without terminating. -/
theorem exitExecute_spec :
    exitExecute [] = ExitOutcome.terminated 0 ∧
    (∀ a rest n, pyParseInt a = some n →
      exitExecute (a :: rest) = ExitOutcome.terminated n) ∧
    (∀ a rest, pyParseInt a = none →
      exitExecute (a :: rest) = ExitOutcome.printed "exit: Invalid exit code\n") := by
  refine ⟨rfl, ?_, ?_⟩ <;> intros <;> simp [exitExecute, *]

/-- Witness for C5: `exit 3` terminates with code 3 and `exit abc` prints
the invalid-code message. -/
theorem exitExecute_spec_case :
    exitExecute ["3"] = ExitOutcome.terminated 3 ∧
    exitExecute ["abc"] = ExitOutcome.printed "exit: Invalid exit code\n" :=
  ⟨exitExecute_spec.2.1 "3" [] 3 (by decide), exitExecute_spec.2.2 "abc" [] (by decide)⟩

/-- C6: for every invocation of the `type` builtin on a non-empty command
name, a registry key prints `<name> is a shell builtin`, otherwise a name
resolved by `findinpath` to `<path>` prints `<name> is <path>`, otherwise
`<name>: not found` is printed; with no argument a usage message is printed
instead. -/
theorem typeExecute_spec (env : OSEnv) (bs : List String) (cmd : String) (rest : List String)
    (hne : cmd ≠ "") :
    (bs.contains cmd = true →
      typeExecute env bs (cmd :: rest) = cmd ++ " is a shell builtin\n") ∧
    (∀ p, bs.contains cmd = false → findinpath env cmd = some p →
      typeExecute env bs (cmd :: rest) = cmd ++ " is " ++ p ++ "\n") ∧
    (bs.contains cmd = false → findinpath env cmd = none →
      typeExecute env bs (cmd :: rest) = cmd ++ ": not found\n") ∧
    typeExecute env bs [] = "type: usage: type <command>\n" := by
  refine ⟨?_, ?_, ?_, rfl⟩
  · intro hb
    have hb' : cmd ∈ bs := by simpa using hb
    simp [typeExecute, hb']
  · intro p hb hf
    have hb' : cmd ∉ bs := by simpa using hb
    have hpne : p ≠ "" := findinpath_some_ne_empty hne hf
    simp [typeExecute, hb', hf, hpne]
  · intro hb hf
    have hb' : cmd ∉ bs := by simpa using hb
    simp [typeExecute, hb', hf]

/-- Witness for C6: `type echo` reports a builtin and `type ls` reports
`/bin/ls`. -/
theorem typeExecute_spec_case :
    typeExecute envBin builtinNames ["echo"] = "echo is a shell builtin\n" ∧
    typeExecute envBin builtinNames ["ls"] = "ls is /bin/ls\n" :=
  ⟨(typeExecute_spec envBin builtinNames "echo" [] (by decide)).1 (by decide),
    (typeExecute_spec envBin builtinNames "ls" [] (by decide)).2.1 "/bin/ls" (by decide)
      (by decide)⟩

/-- Counterexample to C7 as stated: the claim says candidates are the
resolved directory's entries whose names start with the FINAL PATH
COMPONENT of the last token, but the code filters with
`str(p.name).startswith(parts[-1])`, the ENTIRE last token.  On a
filesystem whose current directory holds the directory `foo` containing
the file `bar`, the buffer `cd foo/b` therefore yields the empty candidate
list, while the claim's description yields `["foo/bar"]`. -/
theorem complete_cd_filter_counterexample :
    complete fsFooBar builtinNames "cd foo/b" 0 none = CompleteResult.ok none [] ∧
    claimCdMatches fsFooBar "foo/b" = ["foo/bar"] ∧
    ([] : List String) ≠ ["foo/bar"] :=
  ⟨by decide, by decide, by decide⟩

/-- C7 (amended): for every buffer of two or more tokens whose
second-to-last token is `cd`, the completer resolves the entire last token
(interpreting `/`-separated components against root or the current
directory, applying `..` as parent, and falling back to the parent
directory and then the current directory when the resolved path is not a
directory), and its candidate list is exactly that directory's entries
whose names start with the ENTIRE last token, with a trailing separator
appended to entries that are directories. -/
theorem complete_cd_candidates (fs : FS) (bs : List String) (text : String)
    (cache : Option (List String)) (first second : String) (rest : List String)
    (htok : pySplitWhite text = first :: second :: rest)
    (hcd : (first :: second :: rest).dropLast.getLastD "" = "cd") :
    complete fs bs text 0 cache =
      CompleteResult.ok
        ((amendedCdMatches fs ((first :: second :: rest).getLastD "")).get? 0)
        (amendedCdMatches fs ((first :: second :: rest).getLastD "")) := by
  have hfresh : freshMatches fs bs text =
      amendedCdMatches fs ((first :: second :: rest).getLastD "") := by
    unfold freshMatches
    rw [htok]
    show fragMatches fs
        (if ((first :: second :: rest).dropLast.getLastD "" == "cd") = true
          then cdResolve fs ((first :: second :: rest).getLastD "") else ppDot)
        ((first :: second :: rest).getLastD "") =
      amendedCdMatches fs ((first :: second :: rest).getLastD "")
    rw [hcd]
    rfl
  simp [complete, hfresh]

/-- Witness for C7 (amended): completing `cd fo` in a current directory
holding the subdirectory `foo` offers `foo/`. -/
theorem complete_cd_candidates_case :
    complete fsFooBar builtinNames "cd fo" 0 none =
      CompleteResult.ok (some "foo/") ["foo/"] := by
  have h := complete_cd_candidates fsFooBar builtinNames "cd fo" none "cd" "fo" []
    (by decide) (by decide)
  exact h

/-- C8: for a fixed input buffer, the completer recomputes its candidate
list only on a call with state index 0; a call with any index `N > 0` is
served purely from the cached list (returning its `N`-th element and
leaving the cache untouched, independent of the filesystem and builtins),
and it returns the no-more-candidates value `none` for every index greater
than or equal to the cached list's length. -/
theorem complete_cache_discipline (fs : FS) (bs : List String) (text : String)
    (cache : Option (List String)) (m : List String) (state : Nat) :
    complete fs bs text 0 cache =
      CompleteResult.ok ((freshMatches fs bs text).get? 0) (freshMatches fs bs text) ∧
    (state ≠ 0 → complete fs bs text state (some m) = CompleteResult.ok (m.get? state) m) ∧
    (state ≠ 0 → m.length ≤ state →
      complete fs bs text state (some m) = CompleteResult.ok none m) := by
  refine ⟨by simp [complete], ?_, ?_⟩
  · intro h
    simp [complete, h]
  · intro h hlen
    simp [complete, h, hlen]

/-- Witness for C8: with cache `["a", "b", "c"]`, index 2 serves `c` and
index 5 serves `none`. -/
theorem complete_cache_discipline_case :
    complete fsFooBar builtinNames "x" 2 (some ["a", "b", "c"]) =
      CompleteResult.ok (some "c") ["a", "b", "c"] ∧
    complete fsFooBar builtinNames "x" 5 (some ["a", "b", "c"]) =
      CompleteResult.ok none ["a", "b", "c"] :=
  ⟨(complete_cache_discipline fsFooBar builtinNames "x" none ["a", "b", "c"] 2).2.1
      (by decide),
    (complete_cache_discipline fsFooBar builtinNames "x" none ["a", "b", "c"] 5).2.2
      (by decide) (by decide)⟩

/-- C9: if the very first completion call on a fresh Completer instance has
a state index greater than 0, the call neither returns a candidate nor the
no-more-candidates value: it fails with an `AttributeError`, because
`self.matches` is only ever assigned by a `state == 0` call. -/
theorem complete_uninitialized_attr_error (fs : FS) (bs : List String) (text : String)
    (state : Nat) (h : state ≠ 0) :
    complete fs bs text state none = CompleteResult.attrError ∧
    ∀ res cache, complete fs bs text state none ≠ CompleteResult.ok res cache := by
  have hmain : complete fs bs text state none = CompleteResult.attrError := by
    simp [complete, h]
  refine ⟨hmain, fun res cache hc => ?_⟩
  rw [hmain] at hc
  cases hc

/-- Witness for C9: a first call at state 1 on a fresh instance raises
`AttributeError`. -/
theorem complete_uninitialized_attr_error_case :
    complete fsFooBar builtinNames "cd fo" 1 none = CompleteResult.attrError :=
  (complete_uninitialized_attr_error fsFooBar builtinNames "cd fo" 1 (by decide)).1

/-- C10: for every command name that is an absolute path, joining any
directory with it yields the name itself unchanged, so if that path exists
and is executable, findinpath returns the name itself (regardless of which
directories PATH lists). -/
theorem findinpath_absolute_path (env : OSEnv) (cmd : String)
    (habs : headIsSlash cmd = true) (hex : env.fsExists cmd = true)
    (hx : env.canExec cmd = true) :
    (∀ d, osPathJoin d cmd = cmd) ∧ findinpath env cmd = some cmd := by
  have hjoin : ∀ d, osPathJoin d cmd = cmd := by
    intro d
    unfold osPathJoin
    rw [habs]
    rfl
  refine ⟨hjoin, ?_⟩
  rcases hd : pathDirs env with _ | ⟨d, rest⟩
  · exact absurd hd (pySplitChar_ne_nil ':' _)
  · rw [findinpath, hd]
    simp only [findScan]
    simp [dirMatch, hjoin, hex, hx]

/-- Witness for C10: the absolute name `/bin/ls` resolves to itself. -/
theorem findinpath_absolute_path_case :
    findinpath envBin "/bin/ls" = some "/bin/ls" :=
  (findinpath_absolute_path envBin "/bin/ls" (by decide) (by decide) (by decide)).2

end PyShell
